import Mathlib

/-!
Shallow embedding of the BCH payment-detection engine
(`address_monitor_multi.py`, `address_listener_multi.py`, `fulcrum_client.py`)
and proofs about its qualification pipeline, UTXO diffing, price cache,
registry listener and Electrum client version negotiation.

Monetary amounts (EUR/USD/BCH) are modelled as rationals, sats as integers,
timestamps as integer epoch seconds (UTC).  Optional Python values are
`Option`; Python truthiness of an optional float is `optTruthy`.
-/

namespace Blaze

/-- Grain multiplier for EUR amounts below 20 (source constant `GRAIN_MULTIPLIER_LT_20`). -/
def GRAIN_MULTIPLIER_LT_20 : ℚ := 4

/-- Grain multiplier for EUR amounts in [20, 50) (source constant `GRAIN_MULTIPLIER_20_TO_49_99`). -/
def GRAIN_MULTIPLIER_20_TO_49_99 : ℚ := 5

/-- Grain multiplier for EUR amounts >= 50 (source constant `GRAIN_MULTIPLIER_GE_50`). -/
def GRAIN_MULTIPLIER_GE_50 : ℚ := 6

/-- Sats per BCH: 10^8. -/
def SATS_PER_BCH : ℚ := 100000000

/-- Python truthiness of an optional number (`if price:`): false for `None` and `0`. -/
def optTruthy (p : Option ℚ) : Bool :=
  match p with
  | none => false
  | some x => x != 0

/-- `compute_grain_reward_eur` from `address_monitor_multi.py`:
tiered multiplier (4 below 20 EUR, 5 in [20,50), 6 from 50 EUR) times the EUR amount. -/
def compute_grain_reward_eur (eur_amount : ℚ) : ℚ :=
  let multiplier :=
    if eur_amount < 20 then GRAIN_MULTIPLIER_LT_20
    else if eur_amount < 50 then GRAIN_MULTIPLIER_20_TO_49_99
    else GRAIN_MULTIPLIER_GE_50
  eur_amount * multiplier

/-- `AddressConfig` from `address_listener_multi.py`: one row of the watch table.
`created_at` is epoch seconds UTC; `threshold` is sats. -/
structure AddressConfig where
  address : String
  user_id : Option Nat
  device_id : Option Nat
  created_at : Int
  threshold : Option Int
  euro_amount : Option ℚ
deriving Repr, DecidableEq

/-- A payment event synthesized by `on_address_change` for one new UTXO. -/
structure PaymentEvent where
  address : String
  tx_hash : String
  tx_pos : Nat
  value_sats : Int
  value_bch : ℚ
  height : Int
  status : String
deriving Repr, DecidableEq

/-- A row of the `bchpayment` table as written by `write_payment_record`
(`succeeded_at` is server-side NOW() and not modelled). -/
structure PaymentRecord where
  tx_id : String
  amount : Int
  reference : String
  description : String
  address : String
  euro_amount : Option ℚ
  usd_amount : Option ℚ
deriving Repr, DecidableEq

/-- Observable outcome of one `threshold_handler` call:
which balance/counter updates were executed and the payment record passed to
`write_payment_record` (which is called unconditionally at the end). -/
structure HandlerResult where
  grainDelta : Option (Nat × Int)
  feedingApplied : Option Nat
  record : PaymentRecord
deriving Repr, DecidableEq

/-- Threshold normalization in `threshold_handler`:
`int(float(threshold))`, then non-positive values are discarded (`<= 0 -> None`). -/
def normalize_threshold (t : Option Int) : Option Int :=
  match t with
  | none => none
  | some v => if v ≤ 0 then none else some v

/-- `str(username) if username else f"user {user_id}"`. -/
def display_name_of (user_id : Nat) (username : Option String) : String :=
  match username with
  | some u => if u = "" then "user " ++ toString user_id else u
  | none => "user " ++ toString user_id

/-- The price-based fallback used by the user branch of `threshold_handler`
(window passed, no positive threshold, threshold unmet, or euro_amount invalid):
returns (grain update, euro_amount_insert, usd_amount_insert, description override).
When the cached EUR price is unavailable the balance update is skipped and
no fiat amounts are recorded. -/
def price_mode_update (user_id : Nat) (value_bch : ℚ) (price_eur price_usd : Option ℚ)
    (username : Option String) :
    Option (Nat × Int) × Option ℚ × Option ℚ × Option String :=
  if optTruthy price_eur then
    let eur_amount := value_bch * (price_eur.getD 0)
    let usd_ins := if optTruthy price_usd then some (value_bch * (price_usd.getD 0)) else none
    let grain_delta := ⌈compute_grain_reward_eur eur_amount⌉
    (some (user_id, grain_delta), some eur_amount, usd_ins,
     some (display_name_of user_id username ++ " (+" ++ toString grain_delta ++ " grain)"))
  else
    (none, none, none, none)

/-- `threshold_handler` from `address_monitor_multi.py` (success path of the
database round-trips).  `username` is the `users` lookup result, `deviceRow`
the `(alias, stream_name)` lookup result for device-linked addresses. -/
def threshold_handler (now : Int) (payment : AddressConfig) (event : PaymentEvent)
    (price_eur price_usd : Option ℚ) (username : Option String)
    (deviceRow : Option (Option String × Option String)) : HandlerResult :=
  let tx_id := event.tx_hash
  let amount_sats := event.value_sats
  let default_description :=
    "Auto-detected payment to " ++ payment.address ++ " (" ++ tx_id ++ ":"
      ++ toString event.tx_pos ++ ")"
  let address_str := if event.address = "" then payment.address else event.address
  match payment.user_id with
  | some user_id =>
    let reference := toString user_id
    let within_window : Bool := now - payment.created_at < 30 * 60
    let threshold_sats := normalize_threshold payment.threshold
    let outcome :=
      match threshold_sats, within_window with
      | some ts, true =>
        if amount_sats ≥ ts then
          match payment.euro_amount with
          | some ea =>
            if 0 < ea then
              let usd_ins :=
                if optTruthy price_usd then some (event.value_bch * (price_usd.getD 0)) else none
              let grain_delta := ⌈compute_grain_reward_eur ea⌉
              (some (user_id, grain_delta), some ea, usd_ins,
               some (display_name_of user_id username ++ " (+" ++ toString grain_delta ++ " grain)"))
            else price_mode_update user_id event.value_bch price_eur price_usd username
          | none => price_mode_update user_id event.value_bch price_eur price_usd username
        else price_mode_update user_id event.value_bch price_eur price_usd username
      | _, _ => price_mode_update user_id event.value_bch price_eur price_usd username
    { grainDelta := outcome.1
      feedingApplied := none
      record :=
        { tx_id := tx_id, amount := amount_sats, reference := reference
          description := (outcome.2.2.2).getD default_description, address := address_str
          euro_amount := outcome.2.1, usd_amount := outcome.2.2.1 } }
  | none =>
    let device_id := payment.device_id
    let euro_ins := if optTruthy price_eur then some (event.value_bch * (price_eur.getD 0)) else none
    let usd_ins := if optTruthy price_usd then some (event.value_bch * (price_usd.getD 0)) else none
    let aliasName := deviceRow.bind (fun r => r.1)
    let stream_name := deviceRow.bind (fun r => r.2)
    let device_id_str := match device_id with
      | some d => toString d
      | none => "None"
    let reference := match aliasName with
      | some a => if a = "" then device_id_str else a
      | none => device_id_str
    let description := match stream_name with
      | some s => if s = "" then default_description else "Direct payment to " ++ s
      | none => default_description
    { grainDelta := none
      feedingApplied := device_id
      record :=
        { tx_id := tx_id, amount := amount_sats, reference := reference
          description := description, address := address_str
          euro_amount := euro_ins, usd_amount := usd_ins } }

/-! ### Device-linked gating (`on_address_change`, device branch) -/

/-- Dynamic sats threshold for a device-linked address: when the cached EUR
price is truthy and positive, `int(math.floor((crypto_feed_price / price_eur) * 1e8))`;
otherwise 0 (do not gate). -/
def device_threshold_sats (crypto_feed_price : ℚ) (price_eur : Option ℚ) : Int :=
  match price_eur with
  | some pe => if 0 < pe then ⌊crypto_feed_price / pe * SATS_PER_BCH⌋ else 0
  | none => 0

/-- 5% safety margin: `max(int(math.floor(threshold_sats * 0.95)), 0)`. -/
def effective_threshold (threshold_sats : Int) : Int :=
  max ⌊(threshold_sats : ℚ) * (95 / 100)⌋ 0

/-- Per-event qualification dispatch of `on_address_change`:
user-linked events always reach `threshold_handler`; device-linked events are
gated by the dynamic threshold (fallback to processing when the device price
cannot be fetched).  `none` means the handler did not run: no feeding update
and no `write_payment_record` call for this event. -/
def qualify_event (now : Int) (payment : AddressConfig) (event : PaymentEvent)
    (crypto_feed_price : Option ℚ) (price_eur price_usd : Option ℚ)
    (username : Option String) (deviceRow : Option (Option String × Option String)) :
    Option HandlerResult :=
  match payment.user_id with
  | some _ => some (threshold_handler now payment event price_eur price_usd username deviceRow)
  | none =>
    match crypto_feed_price with
    | none => some (threshold_handler now payment event price_eur price_usd username deviceRow)
    | some cfp =>
      let threshold_sats := device_threshold_sats cfp price_eur
      let effective := effective_threshold threshold_sats
      if event.value_sats ≥ effective then
        some (threshold_handler now payment event price_eur price_usd username deviceRow)
      else none

/-! ### UTXO diffing (`on_address_change` / priming in `run_monitor`) -/

/-- One entry of a `blockchain.address.listunspent` response. -/
structure Utxo where
  tx_hash : Option String
  tx_pos : Nat
  value : Int
  height : Int
deriving Repr, DecidableEq

/-- Identity of an unspent output: `(tx_hash, tx_pos)`. -/
abbrev UtxoKey := String × Nat

/-- The key of a listing entry; entries without a `tx_hash` are skipped. -/
def utxoKey (u : Utxo) : Option UtxoKey :=
  u.tx_hash.map (fun h => (h, u.tx_pos))

/-- `current_keys`: the key set of a fresh listing,
`{(u["tx_hash"], u["tx_pos"]) for u in utxos if u["tx_hash"] is not None}`. -/
def currentKeys (utxos : List Utxo) : Finset UtxoKey :=
  (utxos.filterMap utxoKey).toFinset

/-- `int(u.get("height", -1) or -1)`: Python `or` coerces a zero height to -1. -/
def coercedHeight (h : Int) : Int :=
  if h = 0 then -1 else h

/-- Status classification of a synthesized event. -/
def utxoStatus (height : Int) : String :=
  if height = 0 then "unconfirmed" else if 0 < height then "confirmed" else "unknown"

/-- The PaymentEvent synthesized by `on_address_change` for one new listing entry. -/
def mkEvent (address : String) (u : Utxo) : PaymentEvent :=
  { address := address
    tx_hash := u.tx_hash.getD ""
    tx_pos := u.tx_pos
    value_sats := u.value
    value_bch := (u.value : ℚ) / SATS_PER_BCH
    height := coercedHeight u.height
    status := utxoStatus (coercedHeight u.height) }

/-- `new_keys = current_keys - known`. -/
def new_keys (utxos : List Utxo) (known : Finset UtxoKey) : Finset UtxoKey :=
  currentKeys utxos \ known

/-- The events one notification worker emits: one per listing entry whose key
is in `new_keys`. -/
def emittedEvents (address : String) (utxos : List Utxo) (known : Finset UtxoKey) :
    List PaymentEvent :=
  (utxos.filter (fun u =>
    match utxoKey u with
    | some k => k ∈ new_keys utxos known
    | none => false)).map (mkEvent address)

/-- `known.clear(); known.update(current_keys)` at the end of the worker. -/
def knownAfter (utxos : List Utxo) : Finset UtxoKey :=
  currentKeys utxos

/-- Priming of a newly added address in `run_monitor`: the KnownUtxoSet is
initialized to the key set of the current listing before subscribing. -/
def primeKnown (utxos : List Utxo) : Finset UtxoKey :=
  currentKeys utxos

/-- All events emitted while processing a sequence of notifications
(each element is the fresh listing fetched for that notification),
starting from a given KnownUtxoSet. -/
def processNotifications (address : String) (known : Finset UtxoKey) :
    List (List Utxo) → List PaymentEvent
  | [] => []
  | utxos :: rest =>
    emittedEvents address utxos known ++ processNotifications address (knownAfter utxos) rest

/-- Key of a synthesized event. -/
def eventKey (e : PaymentEvent) : UtxoKey :=
  (e.tx_hash, e.tx_pos)

/-! ### Price cache (`_refresh_bch_prices_once` and the cached getters) -/

/-- The module-level EUR/USD price cache (`_PRICE_CACHE_EUR` / `_PRICE_CACHE_USD`). -/
structure PriceCache where
  eur_price : Option ℚ
  eur_ts : ℚ
  usd_price : Option ℚ
  usd_ts : ℚ
deriving Repr, DecidableEq

/-- Initial cache contents: `{"ts": 0.0, "price": None}` for both currencies. -/
def initialPriceCache : PriceCache :=
  { eur_price := none, eur_ts := 0, usd_price := none, usd_ts := 0 }

/-- Outcome of one price fetch.  `failure` is any transport or decode
exception; `ok e u` carries the values after `float(... or 0.0)` coercion,
so a missing or null field arrives as 0. -/
inductive FetchResult where
  | failure : FetchResult
  | ok (eur_val usd_val : ℚ) : FetchResult
deriving Repr, DecidableEq

/-- `_refresh_bch_prices_once`: update a currency's cache entry only when the
fetched value is strictly positive; on exception keep the previous cache. -/
def refresh_bch_prices_once (c : PriceCache) (now_ts : ℚ) (r : FetchResult) : PriceCache :=
  match r with
  | .failure => c
  | .ok eur_val usd_val =>
    if 0 < eur_val ∨ 0 < usd_val then
      { eur_price := if 0 < eur_val then some eur_val else c.eur_price
        eur_ts := if 0 < eur_val then now_ts else c.eur_ts
        usd_price := if 0 < usd_val then some usd_val else c.usd_price
        usd_ts := if 0 < usd_val then now_ts else c.usd_ts }
    else c

/-- `get_bch_eur_price_cached`: return the cached value if present, else None. -/
def get_bch_eur_price_cached (c : PriceCache) : Option ℚ :=
  c.eur_price

/-- `get_bch_usd_price_cached`: return the cached value if present, else None. -/
def get_bch_usd_price_cached (c : PriceCache) : Option ℚ :=
  c.usd_price

/-- The cache after a sequence of refresh attempts (timestamp, fetch outcome). -/
def run_refreshes (c : PriceCache) (steps : List (ℚ × FetchResult)) : PriceCache :=
  steps.foldl (fun acc s => refresh_bch_prices_once acc s.1 s.2) c

/-! ### Persistence of payment records (`write_payment_record`) -/

/-- The `INSERT INTO bchpayment ...` statement: fails when the store is down
or when the primary key `tx_id` already exists. -/
def insert_payment (storeUp : Bool) (tbl : List PaymentRecord) (r : PaymentRecord) :
    Except String (List PaymentRecord) :=
  if !storeUp then .error "store unavailable"
  else if tbl.any (fun x => x.tx_id == r.tx_id) then
    .error "duplicate key value violates unique constraint"
  else .ok (tbl ++ [r])

/-- `write_payment_record`: the insert runs inside a try/except that catches
every exception and only logs it, so the function always returns and a failed
insert leaves the table unchanged. -/
def write_payment_record (storeUp : Bool) (tbl : List PaymentRecord) (r : PaymentRecord) :
    List PaymentRecord :=
  match insert_payment storeUp tbl r with
  | .ok t => t
  | .error _ => tbl

/-! ### JSON values (payloads of the registry channel and JSON-RPC results) -/

/-- A decoded JSON value as produced by `json.loads`. -/
inductive JsonVal where
  | null : JsonVal
  | boolean (b : Bool) : JsonVal
  | num (q : ℚ) : JsonVal
  | str (s : String) : JsonVal
  | arr (xs : List JsonVal) : JsonVal
  | obj (fields : List (String × JsonVal)) : JsonVal

/-- Python truthiness of a decoded JSON value. -/
def pyTruthy : JsonVal → Bool
  | .null => false
  | .boolean b => b
  | .num q => q != 0
  | .str s => s ≠ ""
  | .arr xs => !xs.isEmpty
  | .obj fs => !fs.isEmpty

/-- Whether `v[i]` succeeds in Python for a decoded JSON value: lists and
strings support integer indexing up to their length; decoded objects have
string keys, so integer lookup raises. -/
def pyIndexOk (v : JsonVal) (i : Nat) : Bool :=
  match v with
  | .arr xs => i < xs.length
  | .str s => i < s.length
  | _ => false

/-- `dict.get(k)` on a decoded JSON object (last duplicate key wins, as in
`json.loads`).  Only objects support `.get`. -/
def jGet (fields : List (String × JsonVal)) (k : String) : Option JsonVal :=
  (fields.reverse.find? (fun f => f.1 == k)).map (fun f => f.2)

/-- Python `str.upper()` (ASCII case mapping, character by character). -/
def pyUpper (s : String) : String :=
  ⟨s.data.map Char.toUpper⟩

/-! ### Registry listener (`_handle_notification` in `address_listener_multi.py`) -/

/-- The row carried by an INSERT/UPDATE payload, as stored into the map. -/
structure RowConfig where
  address : JsonVal
  user_id : Option JsonVal
  device_id : Option JsonVal
  created_at : Option JsonVal
  threshold : Option JsonVal
  euro_amount : Option JsonVal

/-- Net effect of `_handle_notification` on the in-memory address map. -/
inductive NotifyEffect where
  | upsert (row : RowConfig) : NotifyEffect
  | remove (address : JsonVal) : NotifyEffect
  | reload : NotifyEffect
  | logOnly : NotifyEffect

/-- `_handle_notification`: `none` models a payload `json.loads` rejects
(`JSONDecodeError` → full reload).  A decoded payload is processed by action;
any other exception (`.get` on a non-object, `.upper()` on a non-string
action, a missing `address` key) is caught by the generic handler, which only
logs: the map is left unchanged and no reload happens (`logOnly`). -/
def handle_obj (fs : List (String × JsonVal)) : NotifyEffect :=
  match (jGet fs "action").getD (.str "") with
  | .str s =>
    let action := pyUpper s
    if action = "INSERT" ∨ action = "UPDATE" then
      match jGet fs "address" with
      | some addr =>
        .upsert
          { address := addr
            user_id := jGet fs "user_id"
            device_id := jGet fs "device_id"
            created_at := jGet fs "created_at"
            threshold := jGet fs "threshold"
            euro_amount := jGet fs "euro_amount" }
      | none => .logOnly
    else if action = "DELETE" then
      match jGet fs "address" with
      | some addr => .remove addr
      | none => .logOnly
    else .reload
  | _ => .logOnly

/-- See `handle_obj` for the object case. -/
def handle_notification (payload : Option JsonVal) : NotifyEffect :=
  match payload with
  | none => .reload
  | some data =>
    match data with
    | .obj fs => handle_obj fs
    | _ => .logOnly

/-! ### Fulcrum client connection (`_connect_socket` / `_negotiate_version`) -/

/-- The connection flag of `FulcrumClient` (`self.connected`). -/
structure FulcrumState where
  connected : Bool
deriving Repr, DecidableEq

/-- `_negotiate_version`: `server.version(client_name, protocol_version)` is
sent; `none` models `server_version` raising (timeout, transport, or a JSON-RPC
error result).  The code then runs `if response:` and prints `response[0]` and
`response[1]`; an `IndexError`/`TypeError`/`KeyError` there is caught and the
method returns `False`. -/
def negotiate_version (response : Option JsonVal) : Bool :=
  match response with
  | none => false
  | some r => pyTruthy r && pyIndexOk r 0 && pyIndexOk r 1

/-- `_connect_socket`: on a successful socket connect, `self.connected` is set
to `True` *before* version negotiation, and a failed negotiation does not
reset it; the returned Bool is the result of `connect()`. -/
def connect_socket (sock_ok : Bool) (response : Option JsonVal) : Bool × FulcrumState :=
  if sock_ok then (negotiate_version response, { connected := true })
  else (false, { connected := false })

end Blaze

namespace Blaze

/-- Helper: whenever `price_mode_update` applies a grain update, the delta is
the ceiling of the tiered reward of the EUR amount it records. -/
theorem price_mode_update_grain (user_id : Nat) (value_bch : ℚ) (pe pu : Option ℚ)
    (un : Option String) (uid : Nat) (d : Int)
    (h : (price_mode_update user_id value_bch pe pu un).1 = some (uid, d)) :
    ∃ e : ℚ, (price_mode_update user_id value_bch pe pu un).2.1 = some e
      ∧ d = ⌈compute_grain_reward_eur e⌉ := by
  unfold price_mode_update at h ⊢
  split at h
  · simp at h
    refine ⟨value_bch * (pe.getD 0), by simp [*], h.2.symm⟩
  · simp at h

/-- C2: the tiered reward multiplies the EUR amount by 4 below 20 EUR, by 5 in
[20, 50), by 6 from 50 EUR; the boundary inputs 19.99, 20.00, 49.99, 50.00 map
to multipliers 4, 5, 5, 6; and every grain delta `threshold_handler` applies
to a user balance is the ceiling of the tiered reward of the EUR amount it
records. -/
theorem thm_C2 :
    (∀ e : ℚ, e < 20 → compute_grain_reward_eur e = e * 4)
    ∧ (∀ e : ℚ, 20 ≤ e → e < 50 → compute_grain_reward_eur e = e * 5)
    ∧ (∀ e : ℚ, 50 ≤ e → compute_grain_reward_eur e = e * 6)
    ∧ compute_grain_reward_eur (1999 / 100) = (1999 / 100) * 4
    ∧ compute_grain_reward_eur 20 = 20 * 5
    ∧ compute_grain_reward_eur (4999 / 100) = (4999 / 100) * 5
    ∧ compute_grain_reward_eur 50 = 50 * 6
    ∧ (∀ (now : Int) (payment : AddressConfig) (event : PaymentEvent)
        (price_eur price_usd : Option ℚ) (username : Option String)
        (deviceRow : Option (Option String × Option String)) (uid : Nat) (d : Int),
        (threshold_handler now payment event price_eur price_usd username deviceRow).grainDelta
          = some (uid, d) →
        ∃ e : ℚ,
          (threshold_handler now payment event price_eur price_usd username
            deviceRow).record.euro_amount = some e
          ∧ d = ⌈compute_grain_reward_eur e⌉) := by
  refine ⟨?_, ?_, ?_, ?_, ?_, ?_, ?_, ?_⟩
  · intro e h
    simp [compute_grain_reward_eur, GRAIN_MULTIPLIER_LT_20, if_pos h]
  · intro e h1 h2
    simp [compute_grain_reward_eur, GRAIN_MULTIPLIER_20_TO_49_99, if_neg (not_lt.mpr h1),
      if_pos h2]
  · intro e h
    have h20 : ¬ e < 20 := not_lt.mpr (le_trans (by norm_num : (20 : ℚ) ≤ 50) h)
    have h50 : ¬ e < 50 := not_lt.mpr h
    simp [compute_grain_reward_eur, GRAIN_MULTIPLIER_GE_50, if_neg h20, if_neg h50]
  · norm_num [compute_grain_reward_eur, GRAIN_MULTIPLIER_LT_20]
  · norm_num [compute_grain_reward_eur, GRAIN_MULTIPLIER_20_TO_49_99]
  · norm_num [compute_grain_reward_eur, GRAIN_MULTIPLIER_20_TO_49_99]
  · norm_num [compute_grain_reward_eur, GRAIN_MULTIPLIER_GE_50]
  · intro now payment event price_eur price_usd username deviceRow uid d h
    unfold threshold_handler at h ⊢
    cases hu : payment.user_id with
    | none => simp [hu] at h
    | some u =>
      simp only [hu] at h ⊢
      rcases hts : normalize_threshold payment.threshold with _ | ts <;>
        rcases hw : (decide (now - payment.created_at < 30 * 60) : Bool) with _ | _ <;>
          simp only [hts, hw] at h ⊢
      · exact price_mode_update_grain _ _ _ _ _ _ _ h
      · exact price_mode_update_grain _ _ _ _ _ _ _ h
      · exact price_mode_update_grain _ _ _ _ _ _ _ h
      · by_cases hge : event.value_sats ≥ ts
        · simp only [if_pos hge] at h ⊢
          rcases hea : payment.euro_amount with _ | ea
          · simp only [hea] at h ⊢
            exact price_mode_update_grain _ _ _ _ _ _ _ h
          · simp only [hea] at h ⊢
            by_cases hpos : (0 : ℚ) < ea
            · simp only [if_pos hpos] at h ⊢
              simp at h
              exact ⟨ea, rfl, h.2.symm⟩
            · simp only [if_neg hpos] at h ⊢
              exact price_mode_update_grain _ _ _ _ _ _ _ h
        · simp only [if_neg hge] at h ⊢
          exact price_mode_update_grain _ _ _ _ _ _ _ h

/-- C2 witness: tier-1 input 10 EUR gives reward 40. -/
theorem thm_C2_witness : compute_grain_reward_eur 10 = 10 * 4 :=
  thm_C2.1 10 (by norm_num)

/-- C1 counterexample: a user-linked address 60 seconds old with threshold 100
sats and a *set* euro_amount of 0, receiving 200 sats (threshold met) with a
cached EUR price of 400: all preconditions of the claim hold (threshold set
and positive, value >= threshold, euro_amount set), yet the EUR figure used
and recorded is the price-derived 200/10^8 x 400 = 1/1250, not the stored
euro_amount 0 — the code additionally requires euro_amount > 0. -/
theorem thm_C1_counterexample :
    ((60 : Int) - 0 < 30 * 60)
    ∧ normalize_threshold (some 100) = some 100
    ∧ ((200 : Int) ≥ 100)
    ∧ (threshold_handler 60
        { address := "addr1", user_id := some 7, device_id := none, created_at := 0,
          threshold := some 100, euro_amount := some 0 }
        { address := "addr1", tx_hash := "t0", tx_pos := 0, value_sats := 200,
          value_bch := 200 / 100000000, height := 1, status := "confirmed" }
        (some 400) none none none).record.euro_amount = some (1 / 1250)
    ∧ (threshold_handler 60
        { address := "addr1", user_id := some 7, device_id := none, created_at := 0,
          threshold := some 100, euro_amount := some 0 }
        { address := "addr1", tx_hash := "t0", tx_pos := 0, value_sats := 200,
          value_bch := 200 / 100000000, height := 1, status := "confirmed" }
        (some 400) none none none).record.euro_amount ≠ some (0 : ℚ) := by
  refine ⟨by norm_num, by norm_num [normalize_threshold], by norm_num, ?_, ?_⟩ <;>
    norm_num [threshold_handler, normalize_threshold, price_mode_update, optTruthy]

/-- C1 (amended): for a user-linked payment event inside the 30-minute grace
window with a positive configured sats threshold met by the payment, *and the
stored euro_amount set and strictly positive*, the EUR figure used for the
tiered grain reward and written into the PaymentRecord is the stored
euro_amount, not the price-derived value. -/
theorem thm_C1_amended (now : Int) (payment : AddressConfig) (event : PaymentEvent)
    (price_eur price_usd : Option ℚ) (username : Option String)
    (deviceRow : Option (Option String × Option String))
    (uid : Nat) (ts : Int) (ea : ℚ)
    (hu : payment.user_id = some uid)
    (hage : now - payment.created_at < 30 * 60)
    (hts : normalize_threshold payment.threshold = some ts)
    (hmet : event.value_sats ≥ ts)
    (hea : payment.euro_amount = some ea)
    (hpos : 0 < ea) :
    (threshold_handler now payment event price_eur price_usd username
      deviceRow).record.euro_amount = some ea
    ∧ (threshold_handler now payment event price_eur price_usd username
      deviceRow).grainDelta = some (uid, ⌈compute_grain_reward_eur ea⌉) := by
  have hw : (decide (now - payment.created_at < 30 * 60) : Bool) = true := decide_eq_true hage
  unfold threshold_handler
  simp only [hu, hts, hea, hw, if_pos hmet, if_pos hpos]
  simp

/-- C1 witness for the amended theorem: a concrete in-window threshold-met
event with euro_amount 10 records EUR 10 and applies grain 40. -/
theorem thm_C1_amended_witness :
    (threshold_handler 60
        { address := "addr1", user_id := some 7, device_id := none, created_at := 0,
          threshold := some 100, euro_amount := some 10 }
        { address := "addr1", tx_hash := "t0", tx_pos := 0, value_sats := 200,
          value_bch := 200 / 100000000, height := 1, status := "confirmed" }
        (some 400) none none none).record.euro_amount = some 10 :=
  (thm_C1_amended 60
    { address := "addr1", user_id := some 7, device_id := none, created_at := 0,
      threshold := some 100, euro_amount := some 10 }
    { address := "addr1", tx_hash := "t0", tx_pos := 0, value_sats := 200,
      value_bch := 200 / 100000000, height := 1, status := "confirmed" }
    (some 400) none none none 7 100 10 rfl (by norm_num)
    (by norm_num [normalize_threshold]) (by norm_num) rfl (by norm_num)).1

/-- C4: a user-linked event processed in price-mode (grace window passed, no
positive threshold configured, or threshold unmet) while the cached EUR price
is unavailable skips the grain balance update entirely, yet the PaymentRecord
for the event is still written, with a null euro_amount. -/
theorem thm_C4 (now : Int) (payment : AddressConfig) (event : PaymentEvent)
    (price_usd : Option ℚ) (username : Option String)
    (deviceRow : Option (Option String × Option String)) (uid : Nat)
    (hu : payment.user_id = some uid)
    (hmode : ¬ now - payment.created_at < 30 * 60
      ∨ normalize_threshold payment.threshold = none
      ∨ ∃ ts, normalize_threshold payment.threshold = some ts ∧ event.value_sats < ts) :
    (threshold_handler now payment event none price_usd username deviceRow).grainDelta = none
    ∧ (threshold_handler now payment event none price_usd username
        deviceRow).record.euro_amount = none
    ∧ (threshold_handler now payment event none price_usd username deviceRow).record.tx_id
        = event.tx_hash
    ∧ (threshold_handler now payment event none price_usd username deviceRow).record.amount
        = event.value_sats := by
  have hpm : ∀ vb un, price_mode_update uid vb none price_usd un
      = (none, none, none, none) := by
    intro vb un
    simp [price_mode_update, optTruthy]
  unfold threshold_handler
  rcases hmode with hage | hts | ⟨ts, hts, hlt⟩
  · have hw : (decide (now - payment.created_at < 1800) : Bool) = false :=
      decide_eq_false (by rw [show (1800 : Int) = 30 * 60 by norm_num]; exact hage)
    cases hnt : normalize_threshold payment.threshold <;> simp [hu, hw, hnt, hpm]
  · cases hw : (decide (now - payment.created_at < 30 * 60) : Bool) <;> simp [hu, hts, hpm]
  · have hnge : ¬ event.value_sats ≥ ts := not_le.mpr hlt
    cases hw : (decide (now - payment.created_at < 30 * 60) : Bool) <;>
      simp [hu, hts, if_neg hnge, hpm]

/-- C4 witness: a 40-minute-old user-linked address with no cached EUR price:
no balance update, record written with null euro_amount. -/
theorem thm_C4_witness :
    (threshold_handler 2400
        { address := "addr4", user_id := some 9, device_id := none, created_at := 0,
          threshold := none, euro_amount := none }
        { address := "addr4", tx_hash := "t4", tx_pos := 1, value_sats := 100000,
          value_bch := 100000 / 100000000, height := 0, status := "unconfirmed" }
        none none none none).grainDelta = none :=
  (thm_C4 2400
    { address := "addr4", user_id := some 9, device_id := none, created_at := 0,
      threshold := none, euro_amount := none }
    { address := "addr4", tx_hash := "t4", tx_pos := 1, value_sats := 100000,
      value_bch := 100000 / 100000000, height := 0, status := "unconfirmed" }
    none none none 9 rfl (by norm_num [normalize_threshold])).1

/-- Helper: the dynamic device threshold is nonnegative for a nonnegative
device feed price. -/
theorem device_threshold_sats_nonneg (cfp : ℚ) (pe : Option ℚ) (h : 0 ≤ cfp) :
    0 ≤ device_threshold_sats cfp pe := by
  unfold device_threshold_sats
  cases pe with
  | none => simp
  | some p =>
    by_cases hp : 0 < p
    · simp only [if_pos hp]
      exact Int.floor_nonneg.mpr
        (mul_nonneg (div_nonneg h hp.le) (by norm_num [SATS_PER_BCH]))
    · simp [if_neg hp]

/-- Helper: for a device-linked payment the handler's feeding update targets
exactly the configured device. -/
theorem threshold_handler_device_feeding (now : Int) (payment : AddressConfig)
    (event : PaymentEvent) (price_eur price_usd : Option ℚ) (username : Option String)
    (deviceRow : Option (Option String × Option String))
    (hdev : payment.user_id = none) :
    (threshold_handler now payment event price_eur price_usd username
      deviceRow).feedingApplied = payment.device_id := by
  unfold threshold_handler
  simp [hdev]

/-- C3: for a device-linked event with an available (nonnegative) device feed
price: the dynamic threshold is `⌊(crypto_feed_price / price_eur) * 10^8⌋`
when the cached EUR price is available and positive and 0 otherwise; the
effective threshold is `⌊threshold_sats * 0.95⌋` (the `max` clamp is vacuous);
and the qualification handler — feeding-counter update plus PaymentRecord
insert — runs iff `value_sats ≥ effective`, so below the effective threshold
no record is written and no counter update occurs. -/
theorem thm_C3 (now : Int) (payment : AddressConfig) (event : PaymentEvent)
    (cfp : ℚ) (price_eur price_usd : Option ℚ) (username : Option String)
    (deviceRow : Option (Option String × Option String))
    (hdev : payment.user_id = none)
    (hcfp : 0 ≤ cfp) :
    (∀ pe, price_eur = some pe → 0 < pe →
        device_threshold_sats cfp price_eur = ⌊cfp / pe * SATS_PER_BCH⌋)
    ∧ ((∀ pe, price_eur = some pe → ¬ 0 < pe) → device_threshold_sats cfp price_eur = 0)
    ∧ effective_threshold (device_threshold_sats cfp price_eur)
        = ⌊(device_threshold_sats cfp price_eur : ℚ) * (95 / 100)⌋
    ∧ ((qualify_event now payment event (some cfp) price_eur price_usd username
          deviceRow).isSome
        ↔ event.value_sats ≥ effective_threshold (device_threshold_sats cfp price_eur))
    ∧ (¬ event.value_sats ≥ effective_threshold (device_threshold_sats cfp price_eur) →
        qualify_event now payment event (some cfp) price_eur price_usd username deviceRow
          = none)
    ∧ (∀ r, qualify_event now payment event (some cfp) price_eur price_usd username deviceRow
          = some r → r.feedingApplied = payment.device_id ∧ r.record.tx_id = event.tx_hash) := by
  have hts0 : 0 ≤ device_threshold_sats cfp price_eur := device_threshold_sats_nonneg _ _ hcfp
  have heff : effective_threshold (device_threshold_sats cfp price_eur)
      = ⌊(device_threshold_sats cfp price_eur : ℚ) * (95 / 100)⌋ := by
    unfold effective_threshold
    exact max_eq_left (Int.floor_nonneg.mpr
      (mul_nonneg (by exact_mod_cast hts0) (by norm_num)))
  refine ⟨?_, ?_, heff, ?_, ?_, ?_⟩
  · intro pe hpe hpos
    unfold device_threshold_sats
    simp [hpe, if_pos hpos]
  · intro hneg
    unfold device_threshold_sats
    cases hpe : price_eur with
    | none => simp
    | some p => simp [if_neg (hneg p hpe)]
  · unfold qualify_event
    simp only [hdev]
    by_cases hge : event.value_sats ≥ effective_threshold (device_threshold_sats cfp price_eur)
    · simp [if_pos hge, hge]
    · simp [if_neg hge, hge]
  · intro hlt
    unfold qualify_event
    simp [hdev, if_neg hlt]
  · intro r hr
    unfold qualify_event at hr
    simp only [hdev] at hr
    by_cases hge : event.value_sats ≥ effective_threshold (device_threshold_sats cfp price_eur)
    · simp only [if_pos hge, Option.some.injEq] at hr
      subst hr
      refine ⟨threshold_handler_device_feeding _ _ _ _ _ _ _ hdev, ?_⟩
      unfold threshold_handler
      simp [hdev]
    · simp [if_neg hge] at hr

/-- C3 witness (spec scenario S5): feed price 0.50 EUR at BCH price 500 gives
threshold 100000 sats, effective 95000; an incoming 90000-sat payment is
gated: no record, no feeding update. -/
theorem thm_C3_witness :
    qualify_event 0
      { address := "addr5", user_id := none, device_id := some 3, created_at := 0,
        threshold := none, euro_amount := none }
      { address := "addr5", tx_hash := "t5", tx_pos := 0, value_sats := 90000,
        value_bch := 90000 / 100000000, height := 2, status := "confirmed" }
      (some (1 / 2)) (some 500) none none none = none := by
  have h := (thm_C3 0
    { address := "addr5", user_id := none, device_id := some 3, created_at := 0,
      threshold := none, euro_amount := none }
    { address := "addr5", tx_hash := "t5", tx_pos := 0, value_sats := 90000,
      value_bch := 90000 / 100000000, height := 2, status := "confirmed" }
    (1 / 2) (some 500) none none none rfl (by norm_num)).2.2.2.2.1
  apply h
  have hts : device_threshold_sats (1 / 2) (some 500) = 100000 := by
    unfold device_threshold_sats SATS_PER_BCH
    norm_num
  have heff : effective_threshold 100000 = 95000 := by
    unfold effective_threshold
    norm_num
  rw [hts, heff]
  norm_num

/-- Helper: one refresh attempt preserves positivity of both cache entries. -/
theorem refresh_preserves_pos (c : PriceCache) (now : ℚ) (r : FetchResult)
    (he : ∀ p, c.eur_price = some p → 0 < p)
    (hus : ∀ p, c.usd_price = some p → 0 < p) :
    (∀ p, (refresh_bch_prices_once c now r).eur_price = some p → 0 < p)
    ∧ (∀ p, (refresh_bch_prices_once c now r).usd_price = some p → 0 < p) := by
  unfold refresh_bch_prices_once
  cases r with
  | failure => exact ⟨he, hus⟩
  | ok e u =>
    by_cases h : 0 < e ∨ 0 < u
    · simp only [if_pos h]
      constructor
      · intro p hp
        by_cases hep : 0 < e
        · simp only [if_pos hep, Option.some.injEq] at hp
          exact hp ▸ hep
        · simp only [if_neg hep] at hp
          exact he p hp
      · intro p hp
        by_cases hup : 0 < u
        · simp only [if_pos hup, Option.some.injEq] at hp
          exact hp ▸ hup
        · simp only [if_neg hup] at hp
          exact hus p hp
    · simp only [if_neg h]
      exact ⟨he, hus⟩

/-- Helper: positivity of the cache is an invariant of any refresh sequence. -/
theorem run_refreshes_pos (steps : List (ℚ × FetchResult)) (c : PriceCache)
    (he : ∀ p, c.eur_price = some p → 0 < p)
    (hus : ∀ p, c.usd_price = some p → 0 < p) :
    (∀ p, (run_refreshes c steps).eur_price = some p → 0 < p)
    ∧ (∀ p, (run_refreshes c steps).usd_price = some p → 0 < p) := by
  induction steps generalizing c with
  | nil => exact ⟨he, hus⟩
  | cons s rest ih =>
    have h := refresh_preserves_pos c s.1 s.2 he hus
    exact ih _ h.1 h.2

/-- C9: after any sequence of refresh attempts from the initial empty cache,
`get_bch_eur_price_cached` / `get_bch_usd_price_cached` return None or a
strictly positive price; a failed refresh changes nothing; and a fetched
non-positive (zero or missing) value never overwrites the previously cached
price of that currency. -/
theorem thm_C9 :
    (∀ steps : List (ℚ × FetchResult),
      (∀ p, get_bch_eur_price_cached (run_refreshes initialPriceCache steps) = some p → 0 < p)
      ∧ (∀ p, get_bch_usd_price_cached (run_refreshes initialPriceCache steps) = some p →
          0 < p))
    ∧ (∀ (c : PriceCache) (now : ℚ), refresh_bch_prices_once c now .failure = c)
    ∧ (∀ (c : PriceCache) (now : ℚ) (e u : ℚ), ¬ 0 < e →
        (refresh_bch_prices_once c now (.ok e u)).eur_price = c.eur_price)
    ∧ (∀ (c : PriceCache) (now : ℚ) (e u : ℚ), ¬ 0 < u →
        (refresh_bch_prices_once c now (.ok e u)).usd_price = c.usd_price) := by
  refine ⟨?_, ?_, ?_, ?_⟩
  · intro steps
    exact run_refreshes_pos steps initialPriceCache
      (by intro p hp; simp [initialPriceCache] at hp)
      (by intro p hp; simp [initialPriceCache] at hp)
  · intro c now
    rfl
  · intro c now e u hne
    unfold refresh_bch_prices_once
    by_cases h : 0 < e ∨ 0 < u
    · simp [if_pos h, if_neg hne]
    · simp [if_neg h]
  · intro c now e u hnu
    unfold refresh_bch_prices_once
    by_cases h : 0 < e ∨ 0 < u
    · simp [if_pos h, if_neg hnu]
    · simp [if_neg h]

/-- C9 witness: a refresh returning EUR 0 (missing field) and USD 410 after a
successful (400, 430) refresh keeps EUR at 400 and the getters stay positive. -/
theorem thm_C9_witness :
    (∀ p, get_bch_eur_price_cached
        (run_refreshes initialPriceCache [(1, .ok 400 430), (2, .ok 0 410)]) = some p →
      0 < p)
    ∧ (∀ p, get_bch_usd_price_cached
        (run_refreshes initialPriceCache [(1, .ok 400 430), (2, .ok 0 410)]) = some p →
      0 < p) :=
  thm_C9.1 [(1, .ok 400 430), (2, .ok 0 410)]

/-- C10: the PaymentRecord insert is wrapped so that no failure escapes:
the caller always receives a resulting table (unchanged on any insert error,
extended by the record on success); a duplicate `tx_id` insert in particular
leaves the table unchanged, so processing the same UTXO twice yields the same
table as processing it once. -/
theorem thm_C10 (storeUp : Bool) (tbl : List PaymentRecord) (r : PaymentRecord) :
    (write_payment_record storeUp tbl r = tbl
      ∨ write_payment_record storeUp tbl r = tbl ++ [r])
    ∧ (∀ msg, insert_payment storeUp tbl r = .error msg →
        write_payment_record storeUp tbl r = tbl)
    ∧ (tbl.any (fun x => x.tx_id == r.tx_id) →
        write_payment_record storeUp tbl r = tbl)
    ∧ write_payment_record storeUp (write_payment_record true tbl r) r
        = write_payment_record true tbl r := by
  refine ⟨?_, ?_, ?_, ?_⟩
  · unfold write_payment_record insert_payment
    by_cases hs : storeUp
    · by_cases hd : tbl.any (fun x => x.tx_id == r.tx_id)
      · left; simp [hs, hd]
      · right; simp [hs, hd]
    · left; simp [hs]
  · intro msg hmsg
    unfold write_payment_record
    rw [hmsg]
  · intro hd
    unfold write_payment_record insert_payment
    by_cases hs : storeUp
    · simp [hs, hd]
    · simp [hs]
  · have hfst : write_payment_record true tbl r = tbl
        ∨ write_payment_record true tbl r = tbl ++ [r] := by
      unfold write_payment_record insert_payment
      by_cases hd : tbl.any (fun x => x.tx_id == r.tx_id)
      · left; simp [hd]
      · right; simp [hd]
    rcases hfst with h1 | h1
    · have hd : tbl.any (fun x => x.tx_id == r.tx_id) := by
        by_contra hd
        unfold write_payment_record insert_payment at h1
        simp [hd] at h1
      rw [h1]
      unfold write_payment_record insert_payment
      by_cases hs : storeUp
      · simp [hs, hd]
      · simp [hs]
    · have hd2 : (tbl ++ [r]).any (fun x => x.tx_id == r.tx_id) := by
        simp
      rw [h1]
      unfold write_payment_record insert_payment
      by_cases hs : storeUp
      · simp [hs, hd2]
      · simp [hs]

/-- C10 witness: inserting the same record twice into an empty table yields
the single-record table both times. -/
theorem thm_C10_witness :
    write_payment_record true
        (write_payment_record true []
          { tx_id := "t9", amount := 5, reference := "7", description := "d",
            address := "a", euro_amount := none, usd_amount := none })
        { tx_id := "t9", amount := 5, reference := "7", description := "d",
          address := "a", euro_amount := none, usd_amount := none }
      = write_payment_record true []
          { tx_id := "t9", amount := 5, reference := "7", description := "d",
            address := "a", euro_amount := none, usd_amount := none } :=
  (thm_C10 true []
    { tx_id := "t9", amount := 5, reference := "7", description := "d",
      address := "a", euro_amount := none, usd_amount := none }).2.2.2

/-- C7 counterexample: a *three*-element array response passes version
negotiation (`response[0]`/`response[1]` merely index it), so a response that
is not a two-element array does not generally fail; and a response of wrong
shape (here `null`) makes `connect()` return failure while the `connected`
flag — set before negotiation — stays `true`, so the client is not left in
the DISCONNECTED state. -/
theorem thm_C7_counterexample :
    negotiate_version (some (.arr [.str "ElectrumX", .str "1.4.0", .str "extra"])) = true
    ∧ connect_socket true (some (.arr [.str "ElectrumX", .str "1.4.0", .str "extra"]))
        = (true, { connected := true })
    ∧ connect_socket true (some .null) = (false, { connected := true }) :=
  ⟨rfl, rfl, rfl⟩

/-- C7 (amended): version negotiation sends `server.version(client_name,
protocol_version)` and succeeds iff the response is truthy and supports
indexing at positions 0 and 1 — in particular *any* array of length at
least two succeeds; when negotiation fails (or `server_version` raises),
`connect()` returns failure, but the `connected` flag was already set on
socket connect and is not reset, so the client is not left DISCONNECTED. -/
theorem thm_C7_amended :
    (∀ r : JsonVal, negotiate_version (some r)
        = (pyTruthy r && pyIndexOk r 0 && pyIndexOk r 1))
    ∧ negotiate_version none = false
    ∧ (∀ xs : List JsonVal, 2 ≤ xs.length → negotiate_version (some (.arr xs)) = true)
    ∧ (∀ (sock_ok : Bool) (resp : Option JsonVal),
        (connect_socket sock_ok resp).1 = (sock_ok && negotiate_version resp))
    ∧ (∀ resp : Option JsonVal, (connect_socket true resp).2.connected = true) := by
  refine ⟨fun r => rfl, rfl, ?_, ?_, fun resp => rfl⟩
  · intro xs h
    match xs, h with
    | x :: y :: rest, _ =>
      simp [negotiate_version, pyTruthy, pyIndexOk]
  · intro sock_ok resp
    cases sock_ok <;> simp [connect_socket]

/-- C7 witness for the amended theorem: a two-element array negotiates
successfully. -/
theorem thm_C7_amended_witness :
    negotiate_version (some (.arr [.str "ElectrumX", .str "1.4.0"])) = true :=
  thm_C7_amended.2.2.1 [.str "ElectrumX", .str "1.4.0"] (by norm_num)

/-- C8 counterexample: the payload `{"action": 5}` is valid JSON whose action
is unrecognized, yet the listener does not reload: `.upper()` on the integer
raises `AttributeError`, which the generic exception handler only logs. -/
theorem thm_C8_counterexample :
    handle_notification (some (.obj [("action", .num 5)])) = .logOnly
    ∧ handle_notification (some (.obj [("action", .num 5)])) ≠ .reload := by
  refine ⟨rfl, ?_⟩
  intro h
  rw [show handle_notification (some (.obj [("action", .num 5)])) = .logOnly from rfl] at h
  exact NotifyEffect.noConfusion h

/-- C8 (amended): invalid JSON triggers a full reload, as does a decoded JSON
object whose action is a *missing or unrecognized string*; a string action
INSERT/UPDATE (case-insensitive) with an address field upserts the carried
row and DELETE removes the address; but payloads on which field access raises
— non-object JSON, a non-string action, or a missing address on
INSERT/UPDATE/DELETE — are only logged: the map is unchanged and no reload
happens. -/
theorem thm_C8_amended :
    handle_notification none = .reload
    ∧ (∀ fs, jGet fs "action" = none → handle_notification (some (.obj fs)) = .reload)
    ∧ (∀ fs s, jGet fs "action" = some (.str s) →
        pyUpper s ≠ "INSERT" → pyUpper s ≠ "UPDATE" → pyUpper s ≠ "DELETE" →
        handle_notification (some (.obj fs)) = .reload)
    ∧ (∀ fs s addr, jGet fs "action" = some (.str s) →
        (pyUpper s = "INSERT" ∨ pyUpper s = "UPDATE") → jGet fs "address" = some addr →
        handle_notification (some (.obj fs)) = .upsert
          { address := addr, user_id := jGet fs "user_id", device_id := jGet fs "device_id",
            created_at := jGet fs "created_at", threshold := jGet fs "threshold",
            euro_amount := jGet fs "euro_amount" })
    ∧ (∀ fs s addr, jGet fs "action" = some (.str s) → pyUpper s = "DELETE" →
        jGet fs "address" = some addr →
        handle_notification (some (.obj fs)) = .remove addr)
    ∧ (∀ fs v, jGet fs "action" = some v → (∀ s, v ≠ .str s) →
        handle_notification (some (.obj fs)) = .logOnly)
    ∧ (∀ v : JsonVal, (∀ fs, v ≠ .obj fs) → handle_notification (some v) = .logOnly)
    ∧ (∀ fs s, jGet fs "action" = some (.str s) →
        (pyUpper s = "INSERT" ∨ pyUpper s = "UPDATE" ∨ pyUpper s = "DELETE") →
        jGet fs "address" = none → handle_notification (some (.obj fs)) = .logOnly) := by
  refine ⟨rfl, ?_, ?_, ?_, ?_, ?_, ?_, ?_⟩
  · intro fs h
    show handle_obj fs = _
    unfold handle_obj
    rw [h]
    rfl
  · intro fs s h h1 h2 h3
    show handle_obj fs = _
    unfold handle_obj
    rw [h]
    simp only [Option.getD_some]
    rw [if_neg (by
      intro hc
      rcases hc with hc | hc
      · exact h1 hc
      · exact h2 hc)]
    rw [if_neg h3]
  · intro fs s addr h hact haddr
    show handle_obj fs = _
    unfold handle_obj
    rw [h]
    simp only [Option.getD_some]
    rw [if_pos hact, haddr]
  · intro fs s addr h hact haddr
    show handle_obj fs = _
    unfold handle_obj
    rw [h]
    simp only [Option.getD_some]
    rw [if_neg (by
      intro hc
      rcases hc with hc | hc <;> simp [hc] at hact)]
    rw [if_pos hact, haddr]
  · intro fs v h hnstr
    show handle_obj fs = _
    unfold handle_obj
    rw [h]
    cases v with
    | str s => exact absurd rfl (hnstr s)
    | null => rfl
    | boolean b => rfl
    | num q => rfl
    | arr xs => rfl
    | obj o => rfl
  · intro v hnobj
    cases v with
    | obj fs => exact absurd rfl (hnobj fs)
    | null => rfl
    | boolean b => rfl
    | num q => rfl
    | str s => rfl
    | arr xs => rfl
  · intro fs s h hact haddr
    show handle_obj fs = _
    unfold handle_obj
    rw [h]
    simp only [Option.getD_some]
    rcases hact with hc | hc | hc
    · rw [if_pos (Or.inl hc), haddr]
    · rw [if_pos (Or.inr hc), haddr]
    · rw [if_neg (by
        intro hd
        rcases hd with hd | hd <;> simp [hd] at hc)]
      rw [if_pos hc, haddr]

/-- C8 witness for the amended theorem: a lowercase insert payload with an
address upserts the carried row. -/
theorem thm_C8_amended_witness :
    handle_notification (some (.obj [("action", .str "insert"), ("address", .str "bch:q1")]))
      = .upsert
        { address := .str "bch:q1", user_id := none, device_id := none,
          created_at := none, threshold := none, euro_amount := none } := by
  have h := thm_C8_amended.2.2.2.1 [("action", .str "insert"), ("address", .str "bch:q1")]
    "insert" (.str "bch:q1") rfl (Or.inl rfl) rfl
  exact h

/-- Helper: mapping `eventKey` over the events built for the listing entries
whose keys lie in a set `nk` yields exactly the listing keys in `nk`. -/
theorem filter_map_keys (address : String) (nk : Finset UtxoKey) (utxos : List Utxo) :
    ((utxos.filter (fun u => match utxoKey u with
        | some k => decide (k ∈ nk)
        | none => false)).map (mkEvent address)).map eventKey
      = (utxos.filterMap utxoKey).filter (fun k => decide (k ∈ nk)) := by
  induction utxos with
  | nil => rfl
  | cons u rest ih =>
    rw [List.filter_cons, List.filterMap_cons]
    cases hk : u.tx_hash with
    | none =>
      have hku : utxoKey u = none := by simp [utxoKey, hk]
      simp only [hku]
      simpa using ih
    | some h =>
      have hku : utxoKey u = some (h, u.tx_pos) := by simp [utxoKey, hk]
      simp only [hku]
      by_cases hmem : (h, u.tx_pos) ∈ nk
      · simp [hmem, List.filter_cons, eventKey, mkEvent, hk, ih]
      · simp [hmem, List.filter_cons, ih]

/-- Helper: the keys of the events one notification worker emits are exactly
the fresh listing keys in `new_keys = current - known`. -/
theorem emitted_keys (address : String) (utxos : List Utxo) (known : Finset UtxoKey) :
    (emittedEvents address utxos known).map eventKey
      = (utxos.filterMap utxoKey).filter (fun k => decide (k ∈ new_keys utxos known)) :=
  filter_map_keys address (new_keys utxos known) utxos

/-- Helper: every emitted event's key lies in `new_keys`. -/
theorem emitted_event_key_mem (address : String) (utxos : List Utxo)
    (known : Finset UtxoKey) (e : PaymentEvent)
    (he : e ∈ emittedEvents address utxos known) :
    eventKey e ∈ new_keys utxos known := by
  have h1 : eventKey e ∈ (emittedEvents address utxos known).map eventKey :=
    List.mem_map_of_mem eventKey he
  rw [emitted_keys] at h1
  have h2 := List.of_mem_filter h1
  simpa using h2

/-- C6: for every notification whose worker completes, `new_keys` is disjoint
from the known set before processing, the known set afterwards equals exactly
the fresh listing key set, and (when the listing has no duplicate keys) the
emitted events' keys are exactly `new_keys`, one event per key. -/
theorem thm_C6 (address : String) (utxos : List Utxo) (known : Finset UtxoKey)
    (hnd : (utxos.filterMap utxoKey).Nodup) :
    Disjoint (new_keys utxos known) known
    ∧ knownAfter utxos = currentKeys utxos
    ∧ (emittedEvents address utxos known).map eventKey
        = (utxos.filterMap utxoKey).filter (fun k => decide (k ∈ new_keys utxos known))
    ∧ ((emittedEvents address utxos known).map eventKey).Nodup
    ∧ ((emittedEvents address utxos known).map eventKey).toFinset
        = new_keys utxos known := by
  refine ⟨Finset.sdiff_disjoint, rfl, emitted_keys address utxos known, ?_, ?_⟩
  · rw [emitted_keys]
    exact hnd.filter _
  · rw [emitted_keys, List.toFinset_filter]
    ext a
    constructor
    · intro ha
      exact of_decide_eq_true (Finset.mem_filter.mp ha).2
    · intro ha
      refine Finset.mem_filter.mpr ⟨?_, decide_eq_true ha⟩
      exact (Finset.mem_sdiff.mp ha).1

/-- C6 witness: a two-entry listing against an empty known set: the known set
after processing equals the fresh listing key set. -/
theorem thm_C6_witness :
    knownAfter [⟨some "h0", 0, 1000, 5⟩, ⟨some "h1", 0, 2000, 0⟩]
      = currentKeys [⟨some "h0", 0, 1000, 5⟩, ⟨some "h1", 0, 2000, 0⟩] :=
  (thm_C6 "a" [⟨some "h0", 0, 1000, 5⟩, ⟨some "h1", 0, 2000, 0⟩] ∅ (by decide)).2.1

/-- Helper: a key already in the known set is never emitted while it stays in
every subsequent fresh listing. -/
theorem no_event_for_known (address : String) (known : Finset UtxoKey)
    (notifs : List (List Utxo)) (k : UtxoKey) (hk : k ∈ known)
    (hpersist : ∀ n ∈ notifs, k ∈ currentKeys n) :
    ∀ e ∈ processNotifications address known notifs, eventKey e ≠ k := by
  induction notifs generalizing known with
  | nil =>
    intro e he
    simp [processNotifications] at he
  | cons n rest ih =>
    intro e he
    simp only [processNotifications] at he
    rcases List.mem_append.mp he with he | he
    · intro heq
      have hkmem := emitted_event_key_mem address n known e he
      rw [heq] at hkmem
      exact (Finset.mem_sdiff.mp hkmem).2 hk
    · exact ih (knownAfter n) (hpersist n (List.mem_cons_self n rest))
        (fun m hm => hpersist m (List.mem_cons_of_mem n hm)) e he

/-- C5: an address newly added to the watch set is primed — its KnownUtxoSet
is initialized to the key set of its current unspent listing before
subscribing — so a UTXO already present at priming time (and present in every
subsequent fresh listing, i.e. still unspent) is never emitted as a
PaymentEvent by notification processing. -/
theorem thm_C5 (address : String) (initial : List Utxo) (notifs : List (List Utxo))
    (k : UtxoKey) (hinit : k ∈ primeKnown initial)
    (hpersist : ∀ n ∈ notifs, k ∈ currentKeys n) :
    ∀ e ∈ processNotifications address (primeKnown initial) notifs, eventKey e ≠ k :=
  no_event_for_known address (primeKnown initial) notifs k hinit hpersist

/-- C5 witness: priming with one historical UTXO `("h0", 0)` and then
receiving a notification whose listing adds `("h1", 0)`: the single emitted
event is for the new key, not the historical one. -/
theorem thm_C5_witness :
    eventKey (mkEvent "a" ⟨some "h1", 0, 2000, 0⟩) ≠ ("h0", 0) :=
  thm_C5 "a" [⟨some "h0", 0, 1000, 5⟩]
    [[⟨some "h0", 0, 1000, 5⟩, ⟨some "h1", 0, 2000, 0⟩]] ("h0", 0)
    (by decide) (by decide)
    (mkEvent "a" ⟨some "h1", 0, 2000, 0⟩)
    (by
      have hlist : processNotifications "a"
          (primeKnown [⟨some "h0", 0, 1000, 5⟩])
          [[⟨some "h0", 0, 1000, 5⟩, ⟨some "h1", 0, 2000, 0⟩]]
          = [mkEvent "a" ⟨some "h1", 0, 2000, 0⟩] := by
        simp +decide [processNotifications, emittedEvents, new_keys, currentKeys,
          primeKnown, knownAfter, utxoKey]
      rw [hlist]
      exact List.mem_singleton.mpr rfl)

end Blaze
